import Mathlib

/-!
Shallow embedding of `auto_match.py` (smartone-epg): an IPTV playlist / EPG
reconciliation pipeline.  Documents are modelled as `List Char`; Python floats
(the difflib similarity ratio and the 0.82 threshold) are modelled as exact
rationals; Python dicts are association lists in insertion order (first-key
order, last value wins), matching CPython's guaranteed iteration order;
Python sets are lists used only through membership.
-/

set_option maxRecDepth 8192

namespace AutoMatch

/-- Documents and strings are lists of characters. -/
abbrev Str := List Char

/-! ## Basic Python string primitives -/

/-- ASCII whitespace recognised by Python `str.strip` and the regex class
bounded to the characters that occur in these documents. -/
def isPySpace (c : Char) : Bool :=
  c = ' ' || c = '\t' || c = '\n' || c = '\r' || c = '\x0b' || c = '\x0c'

/-- Python `str.strip()`: drop whitespace from both ends. -/
def pyStrip (s : Str) : Str :=
  ((s.dropWhile isPySpace).reverse.dropWhile isPySpace).reverse

/-- Line-break characters recognised by Python `str.splitlines`. -/
def isLineBreak (c : Char) : Bool :=
  c = '\n' || c = '\r' || c = '\x0b' || c = '\x0c' ||
  c = '\x1c' || c = '\x1d' || c = '\x1e' || c = '\x85' ||
  c = '\u2028' || c = '\u2029'

/-- Helper for `pySplitlines`: `acc` is the current line, reversed. -/
def splitlinesAux : Str → Str → List Str
  | [], acc => if acc.isEmpty then [] else [acc.reverse]
  | '\r' :: '\n' :: rest, acc => acc.reverse :: splitlinesAux rest []
  | c :: rest, acc =>
    if isLineBreak c then acc.reverse :: splitlinesAux rest []
    else splitlinesAux rest (c :: acc)

/-- Python `str.splitlines()`: split at line breaks, a trailing terminator
does not produce an empty final line. -/
def pySplitlines (s : Str) : List Str := splitlinesAux s []

/-- The text after the first occurrence of `c`, i.e. `s.split(c, 1)[1]`
for a string known to contain `c`. -/
def afterFirst (c : Char) : Str → Str
  | [] => []
  | x :: rest => if x = c then rest else afterFirst c rest

/-- Python truthiness of a string: nonempty. -/
def pyTruthy (s : Str) : Bool := !s.isEmpty

/-! ## Playlist Parser (`parse_m3u_channels`) -/

/-- One step of the `parse_m3u_channels` loop.  State: the channels collected
so far and the pending name register (`current_name`; `none` models Python
`None`).  An `#EXTINF` line sets the register from the text after the first
comma (or clears it when there is no comma); a nonempty non-`#` line consumes
a truthy pending name into an entry; other lines leave the state unchanged. -/
def parseM3uStep (acc : List (Str × Str) × Option Str) (rawLine : Str) :
    List (Str × Str) × Option Str :=
  let line := pyStrip rawLine
  if ("#EXTINF".data).isPrefixOf line then
    if line.contains ',' then (acc.1, some (pyStrip (afterFirst ',' line)))
    else (acc.1, none)
  else if !line.isEmpty && !(("#".data).isPrefixOf line) &&
      (match acc.2 with | some n => pyTruthy n | none => false) then
    (acc.1 ++ [(acc.2.getD [], line)], none)
  else acc

/-- `parse_m3u_channels`: ordered list of (display name, stream URL) pairs. -/
def parse_m3u_channels (m3u_text : Str) : List (Str × Str) :=
  ((pySplitlines m3u_text).foldl parseM3uStep ([], none)).1

/-! ## Regex-style extraction primitives

The Python code pattern-matches over the guide with non-greedy regexes whose
separators are literal strings.  A non-greedy capture bounded by a literal is
the text up to the first occurrence of that literal, so each `findall` is a
left-to-right scan driven by first-occurrence splits. -/

/-- Split `s` around the first occurrence of the literal `pat`:
`some (before, after)` where `s = before ++ pat ++ after`, or `none` when
`pat` does not occur in `s`. -/
def findSub (pat : Str) : Str → Option (Str × Str)
  | [] => if pat.isEmpty then some ([], []) else none
  | c :: rest =>
    if pat.isPrefixOf (c :: rest) then some ([], (c :: rest).drop pat.length)
    else
      match findSub pat rest with
      | none => none
      | some (pre, post) => some (c :: pre, post)

/-- `re.findall(r"<channel id=\x22(.*?)\x22>(.*?)</channel>", ., re.DOTALL)`:
scan for the opening literal, capture the id up to the first quote-gt, capture
the inner content up to the first closing tag, continue after it.  If any of
the three literals is missing the scan ends (no later start can succeed since
the later search regions are suffixes of the failed ones). -/
def channelBlocksAux : Nat → Str → List (Str × Str)
  | 0, _ => []
  | fuel + 1, s =>
    match findSub ("<channel id=\"".data) s with
    | none => []
    | some (_, r1) =>
      match findSub ("\">".data) r1 with
      | none => []
      | some (cid, r2) =>
        match findSub ("</channel>".data) r2 with
        | none => []
        | some (inner, r3) => (cid, inner) :: channelBlocksAux fuel r3

/-- All `<channel id="..">..</channel>` blocks of a guide document, in order.
The fuel `s.length + 1` is enough because every iteration consumes at least
one character. -/
def channelBlocks (s : Str) : List (Str × Str) :=
  channelBlocksAux (s.length + 1) s

/-- `re.findall(r"<display-name[^>]*>(.*?)</display-name>", inner)` (no
DOTALL): the attribute part runs to the first gt sign; the captured text runs
to the first closing tag and may not contain a newline — when it does, the
match at this position fails and the scan resumes at the next occurrence of
the opening literal. -/
def displayNamesAux : Nat → Str → List Str
  | 0, _ => []
  | fuel + 1, s =>
    match findSub ("<display-name".data) s with
    | none => []
    | some (_, r1) =>
      match findSub (">".data) r1 with
      | none => []
      | some (_, r2) =>
        match findSub ("</display-name>".data) r2 with
        | none => []
        | some (txt, r3) =>
          if txt.contains '\n' then displayNamesAux fuel r1
          else txt :: displayNamesAux fuel r3

/-- All display-name texts inside one channel's inner content. -/
def displayNames (inner : Str) : List Str :=
  displayNamesAux (inner.length + 1) inner

/-- `re.sub(r"\s+", " ", n)`: collapse every whitespace run to one space.
The flag tracks whether the previous character was part of a run. -/
def collapseWsAux : Str → Bool → Str
  | [], _ => []
  | c :: rest, prevSpace =>
    if isPySpace c then
      if prevSpace then collapseWsAux rest true
      else ' ' :: collapseWsAux rest true
    else c :: collapseWsAux rest false

/-- Cleaning applied to each extracted display name: collapse whitespace
runs, then strip. -/
def cleanName (n : Str) : Str := pyStrip (collapseWsAux n false)

/-! ## Python dict as insertion-ordered association list -/

/-- `d[k] = v` on a CPython dict: overwrite in place when the key exists
(keeping its position), otherwise append. -/
def dictInsert {α : Type} (k : Str) (v : α) : List (Str × α) → List (Str × α)
  | [] => [(k, v)]
  | p :: rest => if p.1 = k then (k, v) :: rest else p :: dictInsert k v rest

/-- `d.get(k)`: value of the first (unique) entry with key `k`. -/
def dictGet {α : Type} (d : List (Str × α)) (k : Str) : Option α :=
  match d.find? (fun p => p.1 = k) with
  | some p => some p.2
  | none => none

/-- `parse_epg_channels`: map each channel id to its cleaned display names,
skipping channels with no extracted name, in dict insertion order. -/
def parse_epg_channels (epg_xml : Str) : List (Str × List Str) :=
  (channelBlocks epg_xml).foldl
    (fun d p =>
      let clean_names := (displayNames p.2).map cleanName
      if clean_names.isEmpty then d else dictInsert p.1 clean_names d)
    []

/-! ## Name Matcher: difflib.SequenceMatcher ratio

`similarity` lowercases both strings and takes
`SequenceMatcher(None, a, b).ratio()`: twice the total size of the matching
blocks divided by the total length.  The matching blocks are found by
recursively taking the longest matching block (the one starting earliest in
`a`, then earliest in `b`, among those of maximal length) and recursing on
the parts to its left and to its right.  Scores are modelled as exact
rationals. -/

/-- Length of the longest common prefix. -/
def lcpLen : Str → Str → Nat
  | a :: as, b :: bs => if a = b then lcpLen as bs + 1 else 0
  | _, _ => 0

/-- Length of the matching block of `a[i:]` against `b[j:]` truncated to the
working window ending at `ahi`/`bhi`. -/
def blockLen (a b : Str) (ahi bhi i j : Nat) : Nat :=
  min (lcpLen (a.drop i) (b.drop j)) (min (ahi - i) (bhi - j))

/-- All candidate block starts `(i, j)` of the window, `i` ascending outer,
`j` ascending inner — the scan order of `find_longest_match`. -/
def pairList (alo ahi blo bhi : Nat) : List (Nat × Nat) :=
  (List.range' alo (ahi - alo)).flatMap
    (fun i => (List.range' blo (bhi - blo)).map (fun j => (i, j)))

/-- One candidate inspection: keep the incumbent unless strictly longer, so
the first start attaining the maximal length wins. -/
def flmStep (a b : Str) (ahi bhi : Nat) (acc : Nat × Nat × Nat)
    (p : Nat × Nat) : Nat × Nat × Nat :=
  let k := blockLen a b ahi bhi p.1 p.2
  if acc.2.2 < k then (p.1, p.2, k) else acc

/-- `find_longest_match` on the window `a[alo:ahi]` vs `b[blo:bhi]` (no junk:
the second argument is never 200 characters long for channel names, so the
autojunk heuristic never fires): the triple `(i, j, k)` of the longest
matching block, earliest in `a` then in `b`, `(alo, blo, 0)` when none. -/
def findLongestMatch (a b : Str) (alo ahi blo bhi : Nat) : Nat × Nat × Nat :=
  (pairList alo ahi blo bhi).foldl (flmStep a b ahi bhi) (alo, blo, 0)

/-- Total size of the matching blocks of the window: longest block plus
recursion to its left and right.  Fuel bounds the recursion depth; both
window sizes shrink by at least the block size at every level, so any fuel
of at least `ahi + bhi` suffices. -/
def matchesAux (a b : Str) : Nat → Nat → Nat → Nat → Nat → Nat
  | 0, _, _, _, _ => 0
  | fuel + 1, alo, ahi, blo, bhi =>
    let m := findLongestMatch a b alo ahi blo bhi
    if m.2.2 = 0 then 0
    else
      matchesAux a b fuel alo m.1 blo m.2.1 + m.2.2 +
        matchesAux a b fuel (m.1 + m.2.2) ahi (m.2.1 + m.2.2) bhi

/-- `sum(block.size for block in get_matching_blocks())`. -/
def seqMatches (a b : Str) : Nat :=
  matchesAux a b (a.length + b.length + 1) 0 a.length 0 b.length

/-- `SequenceMatcher.ratio()`: `2 * M / T`, or `1.0` when both strings are
empty. -/
def ratio (a b : Str) : ℚ :=
  if a.length + b.length = 0 then 1
  else (2 * (seqMatches a b : ℚ)) / ((a.length + b.length : Nat) : ℚ)

/-- Python `str.lower` (ASCII; the matched names are channel names). -/
def pyLower (s : Str) : Str := s.map Char.toLower

/-- `similarity`: ratio of the lowercased strings. -/
def similarity (a b : Str) : ℚ := ratio (pyLower a) (pyLower b)

/-- The acceptance threshold, `0.82` exactly. -/
def MIN_SIMILARITY : ℚ := 0.82

/-- `find_best_match`: track the best (strictly improving) score over every
`(id, alias)` pair in guide-mapping order; return the best id only when the
best score reaches the threshold, always return the best score. -/
def find_best_match (channel_name : Str) (epg_channels : List (Str × List Str)) :
    Option Str × ℚ :=
  let best := epg_channels.foldl
    (fun acc p =>
      p.2.foldl
        (fun acc2 n =>
          let score := similarity channel_name n
          if acc2.2 < score then (some p.1, score) else acc2)
        acc)
    (none, 0)
  if MIN_SIMILARITY ≤ best.2 then best else (none, best.2)

/-! ## The matching loop of `main` -/

/-- Python `set.add` (membership is all that is ever used of the set). -/
def setAdd (x : Str) (s : List Str) : List Str :=
  if x ∈ s then s else s ++ [x]

/-- One iteration of the matching loop of `main`: run `find_best_match` on
the entry's name; when it returns an id that is truthy (nonempty — the
`if cid:` test), record it in the name-to-id mapping and in the used-id
set. -/
def matchStep (epg_channels : List (Str × List Str))
    (acc : List (Str × Str) × List Str) (entry : Str × Str) :
    List (Str × Str) × List Str :=
  match (find_best_match entry.1 epg_channels).1 with
  | some cid =>
    if pyTruthy cid then (dictInsert entry.1 cid acc.1, setAdd cid acc.2)
    else acc
  | none => acc

/-- The matching loop of `main` over all playlist entries in order, starting
from the empty mapping and the empty used-id set. -/
def matchFold (channels : List (Str × Str)) (epg_channels : List (Str × List Str)) :
    List (Str × Str) × List Str :=
  channels.foldl (matchStep epg_channels) ([], [])

/-! ## Playlist Projector (`build_new_m3u`) -/

/-- The fixed first line of the output playlist. -/
def m3uHeader : Str := "#EXTM3U url-tvg=\"epg_su_filtru.xml.gz\"".data

/-- The metadata line for one entry: carries the mapped id as a tvg-id
attribute when `mapping.get(name)` is truthy, none otherwise. -/
def extinfLine (name : Str) (mapping : List (Str × Str)) : Str :=
  match dictGet mapping name with
  | some cid =>
    if pyTruthy cid then
      "#EXTINF:-1 tvg-id=\"".data ++ cid ++ "\",".data ++ name
    else "#EXTINF:-1,".data ++ name
  | none => "#EXTINF:-1,".data ++ name

/-- The `out_lines` list of `build_new_m3u`: the header, then for each entry
its metadata line followed by its URL line. -/
def build_new_m3u_lines (channels : List (Str × Str)) (mapping : List (Str × Str)) :
    List Str :=
  channels.foldl (fun out p => out ++ [extinfLine p.1 mapping, p.2]) [m3uHeader]

/-- Join lines with a newline separator. -/
def joinNl : List Str → Str
  | [] => []
  | [l] => l
  | l :: rest => l ++ '\n' :: joinNl rest

/-- `build_new_m3u`: the joined lines plus a final newline. -/
def build_new_m3u (channels : List (Str × Str)) (mapping : List (Str × Str)) : Str :=
  joinNl (build_new_m3u_lines channels mapping) ++ ['\n']

/-! ## Guide Projector (`build_filtered_epg`) -/

/-- The synthesized fallback header. -/
def fallbackHeader : Str :=
  "<?xml version=\"1.0\" encoding=\"utf-8\"?><tv>".data

/-- `re.search(r"^(.*?<tv[^>]*>)", ., re.DOTALL)`: the document prefix up to
and including the first gt sign at or after the first occurrence of the
literal lt-tv; the fallback when either is missing. -/
def epgHeader (epg_xml : Str) : Str :=
  match findSub ("<tv".data) epg_xml with
  | none => fallbackHeader
  | some (pre, rest) =>
    match findSub (">".data) rest with
    | none => fallbackHeader
    | some (mid, _) => pre ++ "<tv".data ++ mid ++ ">".data

/-- `re.findall(r"<programme(.*?)</programme>", ., re.DOTALL)`: everything
between each opening literal and the first closing tag after it. -/
def programmeBlocksAux : Nat → Str → List Str
  | 0, _ => []
  | fuel + 1, s =>
    match findSub ("<programme".data) s with
    | none => []
    | some (_, r1) =>
      match findSub ("</programme>".data) r1 with
      | none => []
      | some (block, r2) => block :: programmeBlocksAux fuel r2

/-- All programme blocks of a guide document, in order. -/
def programmeBlocks (s : Str) : List Str :=
  programmeBlocksAux (s.length + 1) s

/-- `re.search(r'channel=\x22(.*?)\x22', block)`: the text between the first
occurrence of the attribute literal and the next quote. -/
def progChannelAttr (block : Str) : Option Str :=
  match findSub ("channel=\"".data) block with
  | none => none
  | some (_, r1) =>
    match findSub ("\"".data) r1 with
    | none => none
    | some (attr, _) => some attr

/-- The channel blocks the Guide Projector emits: those whose id is in the
used set, in document order. -/
def emittedChannels (epg_xml : Str) (used_ids : List Str) : List (Str × Str) :=
  (channelBlocks epg_xml).filter (fun p => p.1 ∈ used_ids)

/-- Re-serialization of one kept channel block. -/
def channelElement (p : Str × Str) : Str :=
  "<channel id=\"".data ++ p.1 ++ "\">".data ++ p.2 ++ "</channel>".data

/-- The programme blocks the Guide Projector emits: those whose channel
attribute exists and is in the used set, in document order. -/
def emittedProgrammes (epg_xml : Str) (used_ids : List Str) : List Str :=
  (programmeBlocks epg_xml).filter
    (fun b =>
      match progChannelAttr b with
      | some c => c ∈ used_ids
      | none => false)

/-- Re-serialization of one kept programme block. -/
def programmeElement (b : Str) : Str :=
  "<programme".data ++ b ++ "</programme>".data

/-- `build_filtered_epg`: header, kept channel blocks, kept programme
blocks, closing root tag, joined by newlines. -/
def build_filtered_epg (epg_xml : Str) (used_ids : List Str) : Str :=
  joinNl
    ([epgHeader epg_xml] ++
      (emittedChannels epg_xml used_ids).map channelElement ++
      (emittedProgrammes epg_xml used_ids).map programmeElement ++
      ["</tv>".data])

/-! ## The full pipeline (`main`, minus the network and file collaborators) -/

/-- `main` as a function of the two fetched documents: parse both, run the
matching loop, emit the projected playlist and the projected guide. -/
def pipeline (m3u_text epg_xml : Str) : Str × Str :=
  let channels := parse_m3u_channels m3u_text
  let epg_channels := parse_epg_channels epg_xml
  let mu := matchFold channels epg_channels
  (build_new_m3u channels mu.1, build_filtered_epg epg_xml mu.2)

/-! ## Spec-side view of the Name Matcher

The spec states the acceptance rule in terms of the maximum similarity score
over all (identifier, alias) pairs of the guide mapping.  `allPairs` and
`maxSimilarity` are that spec-side reading; the lemmas relate them to the
strictly-improving fold the code performs. -/

/-- All (identifier, alias) pairs of the guide mapping, in iteration order. -/
def allPairs (epg : List (Str × List Str)) : List (Str × Str) :=
  epg.flatMap (fun p => p.2.map (fun n => (p.1, n)))

/-- The maximum similarity of `name` against every (identifier, alias) pair
(`0` when there are none): the quantity the spec's acceptance rule uses. -/
def maxSimilarity (name : Str) (epg : List (Str × List Str)) : ℚ :=
  ((allPairs epg).map (fun p => similarity name p.2)).foldl max 0

/-- The body of `find_best_match`'s double loop, as a step over single
(identifier, alias) pairs. -/
def fbmStep (name : Str) (acc : Option Str × ℚ) (p : Str × Str) :
    Option Str × ℚ :=
  if acc.2 < similarity name p.2 then (some p.1, similarity name p.2) else acc

/-- Playlist document of the C2 counterexample. -/
def m3uC2 : Str := "#EXTM3U\n#EXTINF:-1,X\nhttp://e\n".data

/-- Guide document of the C2 counterexample: a channel whose id is the
empty string, with an alias equal to the playlist name. -/
def epgC2 : Str :=
  "<tv><channel id=\"\"><display-name>X</display-name></channel></tv>".data

/-- Guide document of the C5 witness: the spec's own scenario. -/
def epgC5w : Str :=
  "<tv><channel id=\"lrt.lt\"><display-name>LRT HD</display-name></channel></tv>".data

/-- Playlist document of the C5 scenario: a single entry named LRT HD. -/
def m3uC5w : Str := "#EXTM3U\n#EXTINF:-1,LRT HD\nhttp://lrt\n".data

/-- Guide document of the C5 counterexample: channel a with alias xy,
channel b with alias Xy. -/
def epgC5 : Str :=
  "<tv><channel id=\"a\"><display-name>xy</display-name></channel><channel id=\"b\"><display-name>Xy</display-name></channel></tv>".data

/-- Playlist document shared by the C3 witness and the C6 counterexample. -/
def m3uC6 : Str := "#EXTM3U\n#EXTINF:-1,X\nhttp://u\n".data

/-- One-channel guide for the C6 counterexample (every channel matched). -/
def epgC6 : Str :=
  "<tv><channel id=\"a\"><display-name>X</display-name></channel></tv>".data

/-- Guide document of the C3 witness: one channel and one programme
referencing it. -/
def epgC3 : Str :=
  "<tv><channel id=\"a\"><display-name>X</display-name></channel><programme start=\"s\" channel=\"a\">p</programme></tv>".data

/-! ## Byte-to-text decoding (`download_gzip_xml`)

The guide bytes are decoded with `.decode("utf-8", errors="ignore")`.
`decodeUtf8Ignore` models that call: it is total and, like CPython, skips
the maximal valid subpart of every ill-formed sequence (at least one byte).
`decodeUtf8Strict` is the same decoder in the default (raising) error mode,
modelled by `Option`. -/

/-- A UTF-8 continuation byte. -/
def utf8Cont (b : Nat) : Bool := 0x80 ≤ b && b ≤ 0xBF

/-- The admissible second byte after start byte `b` of a multi-byte
sequence (the ranges that exclude overlong forms, surrogates, and
codepoints beyond U+10FFFF). -/
def utf8Snd (b b2 : Nat) : Bool :=
  if b = 0xE0 then 0xA0 ≤ b2 && b2 ≤ 0xBF
  else if b = 0xED then 0x80 ≤ b2 && b2 ≤ 0x9F
  else if b = 0xF0 then 0x90 ≤ b2 && b2 ≤ 0xBF
  else if b = 0xF4 then 0x80 ≤ b2 && b2 ≤ 0x8F
  else utf8Cont b2

/-- Fuel-based body of `decodeUtf8Ignore` (each step consumes at least one
byte, so fuel `length + 1` always suffices). -/
def decodeUtf8IgnoreAux : Nat → List Nat → List Char
  | 0, _ => []
  | _, [] => []
  | fuel + 1, b :: rest =>
    if b ≤ 0x7F then Char.ofNat b :: decodeUtf8IgnoreAux fuel rest
    else if 0xC2 ≤ b && b ≤ 0xDF then
      match rest with
      | [] => []
      | b2 :: rest2 =>
        if utf8Cont b2 then
          Char.ofNat ((b - 0xC0) * 0x40 + (b2 - 0x80)) :: decodeUtf8IgnoreAux fuel rest2
        else decodeUtf8IgnoreAux fuel rest
    else if 0xE0 ≤ b && b ≤ 0xEF then
      match rest with
      | [] => []
      | b2 :: rest2 =>
        if utf8Snd b b2 then
          match rest2 with
          | [] => []
          | b3 :: rest3 =>
            if utf8Cont b3 then
              Char.ofNat ((b - 0xE0) * 0x1000 + (b2 - 0x80) * 0x40 + (b3 - 0x80)) ::
                decodeUtf8IgnoreAux fuel rest3
            else decodeUtf8IgnoreAux fuel rest2
        else decodeUtf8IgnoreAux fuel rest
    else if 0xF0 ≤ b && b ≤ 0xF4 then
      match rest with
      | [] => []
      | b2 :: rest2 =>
        if utf8Snd b b2 then
          match rest2 with
          | [] => []
          | b3 :: rest3 =>
            if utf8Cont b3 then
              match rest3 with
              | [] => []
              | b4 :: rest4 =>
                if utf8Cont b4 then
                  Char.ofNat
                      ((b - 0xF0) * 0x40000 + (b2 - 0x80) * 0x1000 +
                        (b3 - 0x80) * 0x40 + (b4 - 0x80)) ::
                    decodeUtf8IgnoreAux fuel rest4
                else decodeUtf8IgnoreAux fuel rest3
            else decodeUtf8IgnoreAux fuel rest2
        else decodeUtf8IgnoreAux fuel rest
    else decodeUtf8IgnoreAux fuel rest

/-- Fuel-based body of `decodeUtf8Strict`. -/
def decodeUtf8StrictAux : Nat → List Nat → Option (List Char)
  | 0, [] => some []
  | 0, _ :: _ => none
  | _, [] => some []
  | fuel + 1, b :: rest =>
    if b ≤ 0x7F then
      match decodeUtf8StrictAux fuel rest with
      | some cs => some (Char.ofNat b :: cs)
      | none => none
    else if 0xC2 ≤ b && b ≤ 0xDF then
      match rest with
      | [] => none
      | b2 :: rest2 =>
        if utf8Cont b2 then
          match decodeUtf8StrictAux fuel rest2 with
          | some cs => some (Char.ofNat ((b - 0xC0) * 0x40 + (b2 - 0x80)) :: cs)
          | none => none
        else none
    else if 0xE0 ≤ b && b ≤ 0xEF then
      match rest with
      | [] => none
      | b2 :: rest2 =>
        if utf8Snd b b2 then
          match rest2 with
          | [] => none
          | b3 :: rest3 =>
            if utf8Cont b3 then
              match decodeUtf8StrictAux fuel rest3 with
              | some cs =>
                some (Char.ofNat ((b - 0xE0) * 0x1000 + (b2 - 0x80) * 0x40 + (b3 - 0x80)) :: cs)
              | none => none
            else none
        else none
    else if 0xF0 ≤ b && b ≤ 0xF4 then
      match rest with
      | [] => none
      | b2 :: rest2 =>
        if utf8Snd b b2 then
          match rest2 with
          | [] => none
          | b3 :: rest3 =>
            if utf8Cont b3 then
              match rest3 with
              | [] => none
              | b4 :: rest4 =>
                if utf8Cont b4 then
                  match decodeUtf8StrictAux fuel rest4 with
                  | some cs =>
                    some (Char.ofNat
                        ((b - 0xF0) * 0x40000 + (b2 - 0x80) * 0x1000 +
                          (b3 - 0x80) * 0x40 + (b4 - 0x80)) :: cs)
                  | none => none
                else none
            else none
        else none
    else none

/-- `bytes.decode("utf-8", errors="ignore")`: total; ill-formed input loses
bytes instead of raising. -/
def decodeUtf8Ignore (bs : List Nat) : List Char :=
  decodeUtf8IgnoreAux (bs.length + 1) bs

/-- `bytes.decode("utf-8")` in the default (raising) error mode: `none`
exactly where the ignoring decoder would drop bytes. -/
def decodeUtf8Strict (bs : List Nat) : Option (List Char) :=
  decodeUtf8StrictAux (bs.length + 1) bs

end AutoMatch

namespace AutoMatch

-- two quick sanity checks of the parser on concrete input
example :
    parse_m3u_channels ("#EXTM3U\n#EXTINF:-1, Name \nhttp://u\n".data) =
      [("Name".data, "http://u".data)] := by decide

example :
    parse_m3u_channels ("#EXTINF\nhttp://u\n".data) = [] := by decide

example :
    parse_epg_channels
      ("<tv><channel id=\"a\"><display-name>X  Y</display-name></channel><channel id=\"b\"></channel></tv>".data)
      = [("a".data, ["X Y".data])] := by decide

-- difflib sanity checks (pure Nat level, so decide applies):
-- identical strings match fully
example : seqMatches ("abc".data) ("abc".data) = 3 := by decide
-- difflib("abcd", "bcde") matches "bcd"
example : seqMatches ("abcd".data) ("bcde".data) = 3 := by decide
-- difflib("ab", "ba") finds one block of size 1
example : seqMatches ("ab".data) ("ba".data) = 1 := by decide
-- no common characters
example : seqMatches ("ab".data) ("cd".data) = 0 := by decide

-- decoder sanity checks against CPython behavior
example : decodeUtf8Ignore [0x41, 0xFF, 0x42] = "AB".data := by decide
example : decodeUtf8Ignore [0xE0, 0xA0, 0x41] = "A".data := by decide
example : decodeUtf8Ignore [0xC3, 0xA9] = ['é'] := by decide
example : decodeUtf8Ignore [0xE2, 0x82, 0xAC] = ['€'] := by decide
example : decodeUtf8Ignore [0xC0, 0xAF] = [] := by decide
example : decodeUtf8Ignore [0xED, 0xA0, 0x80] = [] := by decide
example : decodeUtf8Strict [0x41, 0xFF, 0x42] = none := by decide
example : decodeUtf8Strict [0xC3, 0xA9, 0x41] = some ['é', 'A'] := by decide

end AutoMatch

namespace AutoMatch

lemma fbm_fold_eq (name : Str) :
    ∀ (epg : List (Str × List Str)) (acc : Option Str × ℚ),
      epg.foldl
        (fun acc p =>
          p.2.foldl
            (fun acc2 n =>
              let score := similarity name n
              if acc2.2 < score then (some p.1, score) else acc2)
            acc)
        acc
      = (allPairs epg).foldl (fbmStep name) acc := by
  intro epg
  induction epg with
  | nil => intro acc; rfl
  | cons q rest ih =>
    intro acc
    simp only [List.foldl_cons, allPairs, List.flatMap_cons, List.foldl_append,
      List.foldl_map]
    rw [show (fun a (n : Str) => fbmStep name a (q.1, n)) =
        (fun acc2 n =>
          let score := similarity name n
          if acc2.2 < score then (some q.1, score) else acc2) from rfl]
    exact ih _

/-- `find_best_match` via the flattened pair fold. -/
lemma find_best_match_eq (name : Str) (epg : List (Str × List Str)) :
    find_best_match name epg =
      (if MIN_SIMILARITY ≤ ((allPairs epg).foldl (fbmStep name) (none, 0)).2 then
        (allPairs epg).foldl (fbmStep name) (none, 0)
      else (none, ((allPairs epg).foldl (fbmStep name) (none, 0)).2)) := by
  unfold find_best_match
  rw [fbm_fold_eq]

lemma fbmStep_snd (name : Str) (acc : Option Str × ℚ) (p : Str × Str) :
    (fbmStep name acc p).2 = max acc.2 (similarity name p.2) := by
  unfold fbmStep
  by_cases h : acc.2 < similarity name p.2
  · simp [h, max_eq_right (le_of_lt h)]
  · simp [h, max_eq_left (le_of_not_lt h)]

lemma fbm_fold_snd (name : Str) :
    ∀ (l : List (Str × Str)) (acc : Option Str × ℚ),
      (l.foldl (fbmStep name) acc).2 =
        l.foldl (fun m p => max m (similarity name p.2)) acc.2 := by
  intro l
  induction l with
  | nil => intro acc; rfl
  | cons p rest ih =>
    intro acc
    simp only [List.foldl_cons, ih, fbmStep_snd]

lemma fbm_fold_none (name : Str) :
    ∀ (l : List (Str × Str)) (acc : Option Str × ℚ),
      (l.foldl (fbmStep name) acc).1 = none → l.foldl (fbmStep name) acc = acc := by
  intro l
  induction l with
  | nil => intro acc _; rfl
  | cons p rest ih =>
    intro acc h
    simp only [List.foldl_cons] at h ⊢
    have h2 := ih (fbmStep name acc p) h
    rw [h2] at h ⊢
    unfold fbmStep at h ⊢
    by_cases hc : acc.2 < similarity name p.2
    · simp [hc] at h
    · simp [hc]

lemma fbm_fold_some (name : Str) (c : Str) :
    ∀ (l : List (Str × Str)) (acc : Option Str × ℚ),
      (l.foldl (fbmStep name) acc).1 = some c →
        (∃ p ∈ l, p.1 = c) ∨ acc.1 = some c := by
  intro l
  induction l with
  | nil => intro acc h; exact Or.inr h
  | cons p rest ih =>
    intro acc h
    simp only [List.foldl_cons] at h
    rcases ih (fbmStep name acc p) h with h1 | h1
    · rcases h1 with ⟨q, hq, hqc⟩
      exact Or.inl ⟨q, List.mem_cons_of_mem p hq, hqc⟩
    · unfold fbmStep at h1
      by_cases hc : acc.2 < similarity name p.2
      · simp [hc] at h1
        exact Or.inl ⟨p, List.mem_cons_self p rest, h1⟩
      · simp [hc] at h1
        exact Or.inr h1

lemma foldl_max_init_le (l : List ℚ) : ∀ a : ℚ, a ≤ l.foldl max a := by
  induction l with
  | nil => intro a; exact le_refl a
  | cons x rest ih =>
    intro a
    calc a ≤ max a x := le_max_left a x
    _ ≤ rest.foldl max (max a x) := ih (max a x)

lemma foldl_max_mem_le (l : List ℚ) :
    ∀ (a x : ℚ), x ∈ l → x ≤ l.foldl max a := by
  induction l with
  | nil => intro a x hx; cases hx
  | cons y rest ih =>
    intro a x hx
    simp only [List.foldl_cons]
    rcases List.mem_cons.mp hx with h | h
    · subst h
      calc x ≤ max a x := le_max_right a x
      _ ≤ rest.foldl max (max a x) := foldl_max_init_le rest (max a x)
    · exact ih (max a y) x h

/-- The score component of `find_best_match` is the spec's maximum. -/
lemma find_best_match_snd (name : Str) (epg : List (Str × List Str)) :
    (find_best_match name epg).2 = maxSimilarity name epg := by
  rw [find_best_match_eq]
  have hsnd : ((allPairs epg).foldl (fbmStep name) (none, 0)).2 =
      maxSimilarity name epg := by
    rw [fbm_fold_snd]
    unfold maxSimilarity
    rw [List.foldl_map]
  by_cases h : MIN_SIMILARITY ≤ ((allPairs epg).foldl (fbmStep name) (none, 0)).2
  · simp only [if_pos h]; exact hsnd
  · simp only [if_neg h]; exact hsnd

/-- The matcher returns an identifier exactly when the maximum similarity
reaches the threshold. -/
lemma find_best_match_isSome_iff (name : Str) (epg : List (Str × List Str)) :
    (find_best_match name epg).1 ≠ none ↔
      MIN_SIMILARITY ≤ maxSimilarity name epg := by
  have hsnd : ((allPairs epg).foldl (fbmStep name) (none, 0)).2 =
      maxSimilarity name epg := by
    rw [fbm_fold_snd]
    unfold maxSimilarity
    rw [List.foldl_map]
  rw [find_best_match_eq]
  by_cases h : MIN_SIMILARITY ≤ ((allPairs epg).foldl (fbmStep name) (none, 0)).2
  · simp only [if_pos h]
    constructor
    · intro _; rw [← hsnd]; exact h
    · intro _
      intro hnone
      have h2 := fbm_fold_none name (allPairs epg) (none, 0) hnone
      rw [h2] at h
      have : MIN_SIMILARITY = (41 : ℚ) / 50 := by norm_num [MIN_SIMILARITY]
      rw [this] at h
      norm_num at h
  · simp only [if_neg h]
    constructor
    · intro hne; exact absurd rfl hne
    · intro hle; rw [← hsnd] at hle; exact absurd hle h

end AutoMatch

namespace AutoMatch

/-- C1: for every playlist name matched against the guide mapping, the Name
Matcher returns a guide identifier if and only if the maximum similarity
score over all (identifier, alias) pairs is at least the threshold, and the
threshold is exactly 41/50 = 0.82 — so a maximum of exactly 0.82 is accepted
and anything strictly below (such as 0.819999) is rejected. -/
theorem C1_threshold_boundary :
    MIN_SIMILARITY = 41 / 50 ∧
    ∀ (name : Str) (epg : List (Str × List Str)),
      ((find_best_match name epg).1 ≠ none ↔
        MIN_SIMILARITY ≤ maxSimilarity name epg) := by
  constructor
  · norm_num [MIN_SIMILARITY]
  · intro name epg
    exact find_best_match_isSome_iff name epg

end AutoMatch

namespace AutoMatch

/-! ## The used-identifier set -/

lemma mem_setAdd (x c : Str) (s : List Str) :
    c ∈ setAdd x s ↔ c = x ∨ c ∈ s := by
  unfold setAdd
  by_cases h : x ∈ s
  · simp only [if_pos h]
    constructor
    · intro hc; exact Or.inr hc
    · rintro (rfl | hc)
      · exact h
      · exact hc
  · simp only [if_neg h, List.mem_append, List.mem_singleton]
    tauto

lemma pyTruthy_iff (s : Str) : pyTruthy s = true ↔ s ≠ [] := by
  unfold pyTruthy
  cases s <;> simp

/-- Membership in the used-id set accumulated by the matching loop. -/
lemma mem_matchFold_used (epg : List (Str × List Str)) :
    ∀ (channels : List (Str × Str)) (acc : List (Str × Str) × List Str) (c : Str),
      (c ∈ (channels.foldl (matchStep epg) acc).2 ↔
        c ∈ acc.2 ∨
          (c ≠ [] ∧ ∃ p ∈ channels, (find_best_match p.1 epg).1 = some c)) := by
  intro channels
  induction channels with
  | nil => intro acc c; simp
  | cons e rest ih =>
    intro acc c
    simp only [List.foldl_cons]
    rw [ih (matchStep epg acc e) c]
    unfold matchStep
    rcases hr : (find_best_match e.1 epg).1 with _ | cid
    · simp only [List.exists_mem_cons_iff, hr]
      tauto
    · simp only [List.exists_mem_cons_iff, hr]
      by_cases ht : pyTruthy cid
      · have hne : cid ≠ [] := (pyTruthy_iff cid).mp ht
        simp only [if_pos ht, mem_setAdd, Option.some_inj]
        constructor
        · rintro ((rfl | hc) | hrest)
          · exact Or.inr ⟨hne, Or.inl rfl⟩
          · exact Or.inl hc
          · exact Or.inr ⟨hrest.1, Or.inr hrest.2⟩
        · rintro (hc | ⟨hcne, (rfl | hrest)⟩)
          · exact Or.inl (Or.inr hc)
          · exact Or.inl (Or.inl rfl)
          · exact Or.inr ⟨hcne, hrest⟩
      · have hcid : cid = [] := by
          by_contra hne
          exact ht ((pyTruthy_iff cid).mpr hne)
        simp only [if_neg ht, Option.some_inj]
        subst hcid
        constructor
        · rintro (hc | hrest)
          · exact Or.inl hc
          · exact Or.inr ⟨hrest.1, Or.inr hrest.2⟩
        · rintro (hc | ⟨hcne, (rfl | hrest)⟩)
          · exact Or.inl hc
          · exact absurd rfl hcne
          · exact Or.inr ⟨hcne, hrest⟩

end AutoMatch

namespace AutoMatch

/-- C2 (amended): the used-identifier set handed to the Guide Projector is
exactly the set of nonempty identifiers returned as accepted matches over
the playlist entries.  (The original claim, without the nonemptiness
qualification, fails: the loop's Python truthiness test drops an accepted
match whose identifier is the empty string.) -/
theorem C2_used_ids_amended (channels : List (Str × Str))
    (epg : List (Str × List Str)) (c : Str) :
    c ∈ (matchFold channels epg).2 ↔
      c ≠ [] ∧ ∃ p ∈ channels, (find_best_match p.1 epg).1 = some c := by
  unfold matchFold
  rw [mem_matchFold_used epg channels ([], []) c]
  simp

end AutoMatch

namespace AutoMatch

/-! ## Concrete evaluation helpers

`decide` cannot reduce rational arithmetic in the kernel, so concrete
similarity scores are computed by evaluating the (pure `Nat`) matching-block
count with `decide` and finishing the division with `norm_num`. -/

lemma similarity_eval (a b : Str) (k m n : Nat)
    (hm : seqMatches (pyLower a) (pyLower b) = k)
    (ha : (pyLower a).length = m) (hb : (pyLower b).length = n)
    (h : ¬ (m + n = 0)) :
    similarity a b = (2 * (k : ℚ)) / ((m + n : Nat) : ℚ) := by
  unfold similarity ratio
  rw [hm, ha, hb, if_neg h]

lemma simXX : similarity ['X'] ['X'] = 1 := by
  rw [similarity_eval ['X'] ['X'] 1 1 1 (by decide) (by decide)
    (by decide) (by decide)]
  norm_num

lemma fbmC2 : find_best_match ['X'] [([], [['X']])] = (some [], 1) := by
  unfold find_best_match
  simp only [List.foldl_cons, List.foldl_nil, simXX]
  norm_num [MIN_SIMILARITY]

end AutoMatch

namespace AutoMatch

/-- C2 counterexample: with a playlist entry named X and a guide channel
whose id is the empty string and whose alias is X, the entry's accepted
match returns the identifier (the empty string), yet the used-id set handed
to the Guide Projector is empty — the set omits an accepted match's
identifier, so the claimed exact equality fails on this input. -/
theorem C2_counterexample :
    ("X".data, "http://e".data) ∈ parse_m3u_channels m3uC2 ∧
    (find_best_match ("X".data) (parse_epg_channels epgC2)).1 = some [] ∧
    (matchFold (parse_m3u_channels m3uC2) (parse_epg_channels epgC2)).2 = [] := by
  have hm3u : parse_m3u_channels m3uC2 = [(['X'], "http://e".data)] := by decide
  have hp : parse_epg_channels epgC2 = [([], [['X']])] := by decide
  have hfb : find_best_match ("X".data) [([], [['X']])] = (some [], 1) := fbmC2
  refine ⟨by rw [hm3u]; exact List.mem_singleton.mpr rfl, ?_, ?_⟩
  · rw [hp, hfb]
  · rw [hm3u, hp]
    unfold matchFold
    simp only [List.foldl_cons, List.foldl_nil, matchStep, fbmC2]
    simp [pyTruthy]

end AutoMatch

namespace AutoMatch

/-! ## Identifiers returned by the matcher are guide-mapping keys -/

lemma mem_allPairs_fst (epg : List (Str × List Str)) (p : Str × Str)
    (hp : p ∈ allPairs epg) : p.1 ∈ epg.map Prod.fst := by
  unfold allPairs at hp
  rcases List.mem_flatMap.mp hp with ⟨q, hq, hpq⟩
  rcases List.mem_map.mp hpq with ⟨n, _, rfl⟩
  exact List.mem_map.mpr ⟨q, hq, rfl⟩

lemma fbm_some_mem (name : Str) (epg : List (Str × List Str)) (c : Str)
    (h : (find_best_match name epg).1 = some c) : c ∈ epg.map Prod.fst := by
  rw [find_best_match_eq] at h
  by_cases hcond :
      MIN_SIMILARITY ≤ ((allPairs epg).foldl (fbmStep name) (none, 0)).2
  · rw [if_pos hcond] at h
    rcases fbm_fold_some name c (allPairs epg) (none, 0) h with ⟨p, hp, rfl⟩ | habs
    · exact mem_allPairs_fst epg p hp
    · exact Option.noConfusion habs
  · rw [if_neg hcond] at h
    exact Option.noConfusion h

lemma mem_keys_dictInsert {α : Type} (k : Str) (v : α) :
    ∀ (d : List (Str × α)) (c : Str),
      c ∈ (dictInsert k v d).map Prod.fst → c = k ∨ c ∈ d.map Prod.fst := by
  intro d
  induction d with
  | nil =>
    intro c h
    simp [dictInsert] at h
    exact Or.inl h
  | cons p rest ih =>
    intro c h
    unfold dictInsert at h
    by_cases hpk : p.1 = k
    · rw [if_pos hpk] at h
      simp only [List.map_cons, List.mem_cons] at h
      rcases h with h | h
      · exact Or.inl h
      · exact Or.inr (by simp only [List.map_cons, List.mem_cons]; exact Or.inr h)
    · rw [if_neg hpk] at h
      simp only [List.map_cons, List.mem_cons] at h
      rcases h with h | h
      · exact Or.inr (by simp only [List.map_cons, List.mem_cons]; exact Or.inl h)
      · rcases ih c h with h2 | h2
        · exact Or.inl h2
        · exact Or.inr (by simp only [List.map_cons, List.mem_cons]; exact Or.inr h2)

lemma parse_epg_fold_keys (blocks : List (Str × Str)) :
    ∀ (acc : List (Str × List Str)) (c : Str),
      c ∈ ((blocks.foldl
          (fun d p =>
            let clean_names := (displayNames p.2).map cleanName
            if clean_names.isEmpty then d else dictInsert p.1 clean_names d)
          acc).map Prod.fst) →
        c ∈ acc.map Prod.fst ∨ c ∈ blocks.map Prod.fst := by
  induction blocks with
  | nil => intro acc c h; exact Or.inl h
  | cons p rest ih =>
    intro acc c h
    simp only [List.foldl_cons] at h
    rcases ih _ c h with h1 | h1
    · by_cases hcl : ((displayNames p.2).map cleanName).isEmpty
      · rw [if_pos hcl] at h1
        exact Or.inl h1
      · rw [if_neg hcl] at h1
        rcases mem_keys_dictInsert p.1 _ acc c h1 with h2 | h2
        · exact Or.inr (by simp only [List.map_cons, List.mem_cons]; exact Or.inl h2)
        · exact Or.inl h2
    · exact Or.inr (by simp only [List.map_cons, List.mem_cons]; exact Or.inr h1)

/-- Every key of the parsed guide mapping is the id of some channel block of
the raw document. -/
lemma parse_epg_keys_sub (xml : Str) (c : Str)
    (h : c ∈ (parse_epg_channels xml).map Prod.fst) :
    c ∈ (channelBlocks xml).map Prod.fst := by
  unfold parse_epg_channels at h
  rcases parse_epg_fold_keys (channelBlocks xml) [] c h with h1 | h1
  · exact absurd h1 (List.not_mem_nil c)
  · exact h1

end AutoMatch

namespace AutoMatch

/-- C3: in the full pipeline, every programme block the Guide Projector
emits has a channel attribute that is the id of some emitted channel block
of the same projected guide: the used ids come from the parsed guide
mapping, whose keys are ids of channel blocks extracted by the very regex
the projector filters with, so no emitted programme is orphaned. -/
theorem C3_no_orphan_programmes (m3u_text epg_xml : Str) (b c : Str)
    (hb : b ∈ emittedProgrammes epg_xml
      (matchFold (parse_m3u_channels m3u_text) (parse_epg_channels epg_xml)).2)
    (hc : progChannelAttr b = some c) :
    c ∈ (emittedChannels epg_xml
      (matchFold (parse_m3u_channels m3u_text) (parse_epg_channels epg_xml)).2).map
        Prod.fst := by
  unfold emittedProgrammes at hb
  have hcond := List.of_mem_filter hb
  rw [hc] at hcond
  have hcu : c ∈
      (matchFold (parse_m3u_channels m3u_text) (parse_epg_channels epg_xml)).2 :=
    of_decide_eq_true hcond
  have h2 := (mem_matchFold_used (parse_epg_channels epg_xml)
    (parse_m3u_channels m3u_text) ([], []) c).mp hcu
  rcases h2 with h2 | ⟨_, p, _, hfbm⟩
  · exact absurd h2 (List.not_mem_nil c)
  have h4 : c ∈ (channelBlocks epg_xml).map Prod.fst :=
    parse_epg_keys_sub epg_xml c (fbm_some_mem p.1 (parse_epg_channels epg_xml) c hfbm)
  rcases List.mem_map.mp h4 with ⟨q, hq, rfl⟩
  unfold emittedChannels
  exact List.mem_map.mpr
    ⟨q, List.mem_filter.mpr ⟨hq, decide_eq_true hcu⟩, rfl⟩

end AutoMatch

namespace AutoMatch

/-! ## Structure of the projected playlist -/

lemma build_lines_foldl (mapping : List (Str × Str)) :
    ∀ (channels : List (Str × Str)) (init : List Str),
      channels.foldl (fun out p => out ++ [extinfLine p.1 mapping, p.2]) init =
        init ++ channels.flatMap (fun p => [extinfLine p.1 mapping, p.2]) := by
  intro channels
  induction channels with
  | nil => intro init; simp
  | cons p rest ih =>
    intro init
    simp only [List.foldl_cons, List.flatMap_cons, ih, List.append_assoc,
      List.cons_append, List.nil_append]

lemma build_lines_eq (channels mapping : List (Str × Str)) :
    build_new_m3u_lines channels mapping =
      m3uHeader :: channels.flatMap (fun p => [extinfLine p.1 mapping, p.2]) := by
  unfold build_new_m3u_lines
  rw [build_lines_foldl]
  rfl

lemma m3u_flatMap_length (mapping : List (Str × Str)) :
    ∀ (l : List (Str × Str)),
      (l.flatMap (fun p => [extinfLine p.1 mapping, p.2])).length = 2 * l.length := by
  intro l
  induction l with
  | nil => rfl
  | cons p rest ih =>
    simp only [List.flatMap_cons, List.length_append, ih, List.length_cons,
      List.length_nil]
    ring

/-- The metadata line of the i-th entry sits at even offset `2 * i` of the
flattened entry lines. -/
lemma m3u_flatMap_getD (mapping : List (Str × Str)) :
    ∀ (l : List (Str × Str)) (i : Nat), i < l.length →
      (l.flatMap (fun p => [extinfLine p.1 mapping, p.2])).getD (2 * i) [] =
        extinfLine (l.getD i ([], [])).1 mapping := by
  intro l
  induction l with
  | nil => intro i hi; exact absurd hi (Nat.not_lt_zero i)
  | cons p rest ih =>
    intro i hi
    cases i with
    | zero => simp
    | succ j =>
      have hj : j < rest.length := Nat.lt_of_succ_lt_succ (by simpa using hi)
      have e1 : 2 * (j + 1) = 2 * j + 1 + 1 := by ring
      simp only [List.flatMap_cons, List.cons_append, List.nil_append, e1,
        List.getD_cons_succ]
      exact ih j hj

end AutoMatch

namespace AutoMatch

/-- C4: for every parsed playlist and mapping, the projected playlist's line
list is the header followed by exactly one metadata-line/URL-line pair per
input entry, in input order (so it has `1 + 2 n` lines for `n` entries):
projection never drops or reorders entries, whatever the match outcome. -/
theorem C4_projection_preserves_entries (channels mapping : List (Str × Str)) :
    build_new_m3u_lines channels mapping =
      m3uHeader :: channels.flatMap (fun p => [extinfLine p.1 mapping, p.2]) ∧
    (build_new_m3u_lines channels mapping).length = 1 + 2 * channels.length := by
  constructor
  · exact build_lines_eq channels mapping
  · rw [build_lines_eq]
    simp only [List.length_cons, m3u_flatMap_length]
    ring

end AutoMatch

namespace AutoMatch

/-- C8: the pipeline output is a deterministic function of the two fetched
source documents — two runs on equal inputs produce equal (byte-identical)
output documents.  In this embedding `pipeline` consumes nothing but its two
arguments (there is no other state), so equal inputs give equal outputs. -/
theorem C8_deterministic (m3u_a epg_a m3u_b epg_b : Str)
    (h1 : m3u_a = m3u_b) (h2 : epg_a = epg_b) :
    pipeline m3u_a epg_a = pipeline m3u_b epg_b := by
  rw [h1, h2]

/-- Witness for C8 at concrete inputs. -/
theorem C8_witness :
    pipeline ("#EXTM3U".data) ("<tv></tv>".data) =
      pipeline ("#EXTM3U".data) ("<tv></tv>".data) :=
  C8_deterministic ("#EXTM3U".data) ("<tv></tv>".data) ("#EXTM3U".data)
    ("<tv></tv>".data) rfl rfl

end AutoMatch

namespace AutoMatch

/-- C9: a stripped metadata line (starting with the EXTINF marker) that
contains a comma sets the pending name to the text after the first comma,
trimmed; one with no comma clears the pending name; and with no pending
name, any non-metadata line (in particular a URL line) emits no entry and
leaves the pending name absent — the URL is silently dropped. -/
theorem C9_extinf_sets_pending :
    (∀ (chs : List (Str × Str)) (st : Option Str) (rawLine : Str),
        ("#EXTINF".data).isPrefixOf (pyStrip rawLine) = true →
        parseM3uStep (chs, st) rawLine =
          (if (pyStrip rawLine).contains ','
            then (chs, some (pyStrip (afterFirst ',' (pyStrip rawLine))))
            else (chs, none))) ∧
    (∀ (chs : List (Str × Str)) (rawLine : Str),
        ("#EXTINF".data).isPrefixOf (pyStrip rawLine) = false →
        parseM3uStep (chs, none) rawLine = (chs, none)) := by
  constructor
  · intro chs st rawLine hpre
    unfold parseM3uStep
    simp only [hpre, if_true]
  · intro chs rawLine hpre
    unfold parseM3uStep
    simp [hpre]

/-- Witness for C9: a concrete comma-free metadata line clears the pending
name, and the URL line after it is dropped. -/
theorem C9_witness :
    parseM3uStep ([], some ['N']) ("#EXTINF:-1 no comma".data) = ([], none) ∧
    parseM3uStep ([], none) ("http://dropped".data) = ([], none) := by
  constructor
  · have h := C9_extinf_sets_pending.1 [] (some ['N'])
      ("#EXTINF:-1 no comma".data) (by decide)
    rw [h]
    decide
  · exact C9_extinf_sets_pending.2 [] ("http://dropped".data) (by decide)

end AutoMatch

namespace AutoMatch

/-- C10: in the full pipeline, two playlist entries with the same display
name receive the same metadata line (hence the same tvg-id attribute, or
none in both): the attached identifier is a function of the display name
alone, not of the entry's position or URL. -/
theorem C10_same_name_same_id (m3u_text epg_xml : Str) (i j : Nat)
    (hi : i < (parse_m3u_channels m3u_text).length)
    (hj : j < (parse_m3u_channels m3u_text).length)
    (hname : ((parse_m3u_channels m3u_text).getD i ([], [])).1 =
      ((parse_m3u_channels m3u_text).getD j ([], [])).1) :
    (build_new_m3u_lines (parse_m3u_channels m3u_text)
        (matchFold (parse_m3u_channels m3u_text) (parse_epg_channels epg_xml)).1).getD
      (2 * i + 1) [] =
    (build_new_m3u_lines (parse_m3u_channels m3u_text)
        (matchFold (parse_m3u_channels m3u_text) (parse_epg_channels epg_xml)).1).getD
      (2 * j + 1) [] := by
  rw [build_lines_eq]
  simp only [List.getD_cons_succ]
  rw [m3u_flatMap_getD _ (parse_m3u_channels m3u_text) i hi]
  rw [m3u_flatMap_getD _ (parse_m3u_channels m3u_text) j hj]
  rw [hname]

end AutoMatch

namespace AutoMatch

/-! ## Self-similarity: the ratio of a string against itself is 1 -/

lemma lcpLen_self : ∀ s : Str, lcpLen s s = s.length := by
  intro s
  induction s with
  | nil => rfl
  | cons c rest ih => simp [lcpLen, ih]

lemma blockLen_le_left (a b : Str) (ahi bhi i j : Nat) :
    blockLen a b ahi bhi i j ≤ ahi := by
  unfold blockLen
  calc min (lcpLen (a.drop i) (b.drop j)) (min (ahi - i) (bhi - j)) ≤
      min (ahi - i) (bhi - j) := min_le_right _ _
  _ ≤ ahi - i := min_le_left _ _
  _ ≤ ahi := Nat.sub_le ahi i

lemma foldl_flmStep_fixed (a b : Str) (ahi bhi : Nat) :
    ∀ (l : List (Nat × Nat)) (acc : Nat × Nat × Nat),
      (∀ p ∈ l, blockLen a b ahi bhi p.1 p.2 ≤ acc.2.2) →
      l.foldl (flmStep a b ahi bhi) acc = acc := by
  intro l
  induction l with
  | nil => intro acc _; rfl
  | cons p rest ih =>
    intro acc hall
    simp only [List.foldl_cons]
    have hp := hall p (List.mem_cons_self p rest)
    have hstep : flmStep a b ahi bhi acc p = acc := by
      unfold flmStep
      rw [if_neg (not_lt.mpr hp)]
    rw [hstep]
    exact ih acc (fun q hq => hall q (List.mem_cons_of_mem p hq))

lemma pairList_zero_succ (m : Nat) :
    ∃ t : List (Nat × Nat), pairList 0 (m + 1) 0 (m + 1) = (0, 0) :: t := by
  unfold pairList
  simp only [Nat.sub_zero]
  have h : List.range' 0 (m + 1) = 0 :: List.range' 1 m := rfl
  rw [h]
  simp only [List.flatMap_cons, List.map_cons, List.cons_append]
  exact ⟨_, rfl⟩

/-- On a window of a string against itself the longest matching block is the
whole window, found first at `(0, 0)`. -/
lemma flm_self (s : Str) (m : Nat) (hn : s.length = m + 1) :
    findLongestMatch s s 0 (m + 1) 0 (m + 1) = (0, 0, m + 1) := by
  unfold findLongestMatch
  rcases pairList_zero_succ m with ⟨t, ht⟩
  rw [ht]
  simp only [List.foldl_cons]
  have hb : blockLen s s (m + 1) (m + 1) 0 0 = m + 1 := by
    unfold blockLen
    simp [lcpLen_self, hn]
  have hstep : flmStep s s (m + 1) (m + 1) (0, 0, 0) (0, 0) = (0, 0, m + 1) := by
    unfold flmStep
    rw [hb]
    simp
  rw [hstep]
  exact foldl_flmStep_fixed s s (m + 1) (m + 1) t (0, 0, m + 1)
    (fun p _ => blockLen_le_left s s (m + 1) (m + 1) p.1 p.2)

lemma matchesAux_empty (a b : Str) :
    ∀ (fuel alo blo bhi : Nat), matchesAux a b fuel alo alo blo bhi = 0 := by
  intro fuel alo blo bhi
  cases fuel with
  | zero => rfl
  | succ k =>
    unfold matchesAux
    have h : findLongestMatch a b alo alo blo bhi = (alo, blo, 0) := by
      unfold findLongestMatch pairList
      simp
    rw [h]
    simp

lemma seqMatches_self (s : Str) : seqMatches s s = s.length := by
  unfold seqMatches
  cases hn : s.length with
  | zero =>
    have : s = [] := List.length_eq_zero.mp hn
    subst this
    rfl
  | succ m =>
    unfold matchesAux
    rw [flm_self s m hn]
    simp [matchesAux_empty]

lemma ratio_self (t : Str) : ratio t t = 1 := by
  unfold ratio
  by_cases h : t.length + t.length = 0
  · rw [if_pos h]
  · rw [if_neg h]
    rw [seqMatches_self]
    have hlen : (0 : ℚ) < ((t.length + t.length : Nat) : ℚ) := by
      have : 0 < t.length + t.length := Nat.pos_of_ne_zero h
      exact_mod_cast this
    rw [div_eq_one_iff_eq (ne_of_gt hlen)]
    push_cast
    ring

lemma similarity_self (s : Str) : similarity s s = 1 := by
  unfold similarity
  exact ratio_self (pyLower s)

/-- A string equal to another after lowercasing scores 1 against it. -/
lemma similarity_lower_eq (a b : Str) (h : pyLower a = pyLower b) :
    similarity a b = 1 := by
  unfold similarity
  rw [h]
  exact ratio_self (pyLower b)

end AutoMatch

namespace AutoMatch

/-! ## Concrete matcher evaluations -/

/-- `find_best_match` against a single channel with a single alias of
score 1. -/
lemma fbm_single (name cid al : Str) (h1 : similarity name al = 1) :
    find_best_match name [(cid, [al])] = (some cid, 1) := by
  unfold find_best_match
  simp only [List.foldl_cons, List.foldl_nil, h1]
  norm_num [MIN_SIMILARITY]

/-- `find_best_match` against two channels whose single aliases both score 1:
the strictly-improving fold keeps the first. -/
lemma fbm_pair_first (name c1 a1 c2 a2 : Str)
    (h1 : similarity name a1 = 1) (h2 : similarity name a2 = 1) :
    find_best_match name [(c1, [a1]), (c2, [a2])] = (some c1, 1) := by
  unfold find_best_match
  simp only [List.foldl_cons, List.foldl_nil, h1, h2]
  norm_num [MIN_SIMILARITY]

/-- The matching loop on a one-entry playlist and a one-channel guide with
an exact (score-1) alias and a truthy id. -/
lemma matchFold_single (nm url cid al : Str)
    (h1 : similarity nm al = 1) (hcid : cid ≠ []) :
    matchFold [(nm, url)] [(cid, [al])] = ([(nm, cid)], [cid]) := by
  unfold matchFold
  simp only [List.foldl_cons, List.foldl_nil, matchStep, fbm_single nm cid al h1]
  have ht : pyTruthy cid = true := (pyTruthy_iff cid).mpr hcid
  simp [ht, dictInsert, setAdd]

end AutoMatch

namespace AutoMatch

/-! ## The winner of the strictly-improving fold

The pair fold updates only on a strictly greater score, so its final id is
the one of the first pair (in iteration order) attaining the maximal score:
the last update happens at that pair, every earlier pair scores strictly
below it and every later pair at most it. -/

/-- The score component of the pair fold never decreases. -/
lemma fbm_fold_le_snd (name : Str) :
    ∀ (l : List (Str × Str)) (acc : Option Str × ℚ),
      acc.2 ≤ (l.foldl (fbmStep name) acc).2 := by
  intro l
  induction l with
  | nil => intro acc; exact le_refl _
  | cons x rest ih =>
    intro acc
    simp only [List.foldl_cons]
    calc acc.2 ≤ (fbmStep name acc x).2 := by
          rw [fbmStep_snd]; exact le_max_left _ _
    _ ≤ _ := ih (fbmStep name acc x)

/-- A fold that returns its accumulator unchanged saw no score above the
accumulator's. -/
lemma fbm_fold_fixed_le (name : Str) :
    ∀ (l : List (Str × Str)) (acc : Option Str × ℚ),
      l.foldl (fbmStep name) acc = acc →
      ∀ q ∈ l, similarity name q.2 ≤ acc.2 := by
  intro l
  induction l with
  | nil => intro acc _ q hq; cases hq
  | cons x rest ih =>
    intro acc hfix q hq
    simp only [List.foldl_cons] at hfix
    have hmono1 : acc.2 ≤ (fbmStep name acc x).2 := by
      rw [fbmStep_snd]; exact le_max_left _ _
    have hmono2 : (fbmStep name acc x).2 ≤
        (rest.foldl (fbmStep name) (fbmStep name acc x)).2 :=
      fbm_fold_le_snd name rest (fbmStep name acc x)
    have heq2 : (fbmStep name acc x).2 = acc.2 := by
      have hsnd : (rest.foldl (fbmStep name) (fbmStep name acc x)).2 = acc.2 := by
        rw [hfix]
      exact le_antisymm (by rw [← hsnd]; exact hmono2) hmono1
    have hxle : similarity name x.2 ≤ acc.2 := by
      rw [fbmStep_snd] at heq2
      exact max_eq_left_iff.mp heq2
    have hstepid : fbmStep name acc x = acc := by
      unfold fbmStep
      rw [if_neg (not_lt.mpr hxle)]
    rcases List.mem_cons.mp hq with rfl | hq2
    · exact hxle
    · apply ih acc ?_ q hq2
      rw [hstepid] at hfix
      exact hfix

/-- The pair fold either never updates, or ends at the first pair attaining
the maximal score: every earlier pair scores strictly below it and every
later pair at most it. -/
lemma fbm_fold_last_update (name : Str) :
    ∀ (l : List (Str × Str)) (acc : Option Str × ℚ),
      l.foldl (fbmStep name) acc = acc ∨
      ∃ pre p post, l = pre ++ p :: post ∧
        l.foldl (fbmStep name) acc = (some p.1, similarity name p.2) ∧
        acc.2 < similarity name p.2 ∧
        (∀ q ∈ pre, similarity name q.2 < similarity name p.2) ∧
        (∀ q ∈ post, similarity name q.2 ≤ similarity name p.2) := by
  intro l
  induction l with
  | nil => intro acc; exact Or.inl rfl
  | cons x rest ih =>
    intro acc
    simp only [List.foldl_cons]
    rcases ih (fbmStep name acc x) with h | ⟨pre, p, post, hsplit, hres, hlt, hpre, hpost⟩
    · by_cases hx : acc.2 < similarity name x.2
      · right
        have hacc : fbmStep name acc x = (some x.1, similarity name x.2) := by
          unfold fbmStep; rw [if_pos hx]
        refine ⟨[], x, rest, rfl, ?_, hx, ?_, ?_⟩
        · rw [h, hacc]
        · intro q hq; cases hq
        · intro q hq
          have hle := fbm_fold_fixed_le name rest (fbmStep name acc x) h q hq
          rw [hacc] at hle
          exact hle
      · left
        have hstepid : fbmStep name acc x = acc := by
          unfold fbmStep; rw [if_neg hx]
        rw [hstepid] at h ⊢
        exact h
    · right
      refine ⟨x :: pre, p, post, by rw [hsplit, List.cons_append], hres, ?_, ?_, hpost⟩
      · exact lt_of_le_of_lt (by rw [fbmStep_snd]; exact le_max_left _ _) hlt
      · intro q hq
        rcases List.mem_cons.mp hq with rfl | hq2
        · exact lt_of_le_of_lt (by rw [fbmStep_snd]; exact le_max_right _ _) hlt
        · exact hpre q hq2

/-- The score component of the pair fold from the initial accumulator is
the spec's maximum. -/
lemma fbm_fold_snd_max (name : Str) (epg : List (Str × List Str)) :
    ((allPairs epg).foldl (fbmStep name) (none, 0)).2 = maxSimilarity name epg := by
  rw [fbm_fold_snd]
  unfold maxSimilarity
  rw [List.foldl_map]

end AutoMatch

namespace AutoMatch

/-- C5 (amended): for every playlist name appearing verbatim as an alias of
some guide channel, the similarity score against that alias is 1 and the
Name Matcher accepts a match, selecting the identifier of the first
(identifier, alias) pair in guide-mapping order that attains the maximal
score — which need not be the channel owning the verbatim alias when
several aliases tie (see the counterexample).  In the spec's scenario
(single channel lrt.lt with alias LRT HD) lrt.lt itself is selected and the
output metadata line is EXTINF with tvg-id lrt.lt and the name LRT HD. -/
theorem C5_exact_alias_amended :
    (∀ (epg : List (Str × List Str)) (cid name : Str) (names : List Str),
        (cid, names) ∈ epg → name ∈ names →
        similarity name name = 1 ∧
        ∃ pre p post, allPairs epg = pre ++ p :: post ∧
          (find_best_match name epg).1 = some p.1 ∧
          similarity name p.2 = maxSimilarity name epg ∧
          ∀ q ∈ pre, similarity name q.2 < maxSimilarity name epg) ∧
    (find_best_match ("LRT HD".data) (parse_epg_channels epgC5w)).1 =
      some ("lrt.lt".data) ∧
    (build_new_m3u_lines (parse_m3u_channels m3uC5w)
        (matchFold (parse_m3u_channels m3uC5w) (parse_epg_channels epgC5w)).1).getD
      1 [] = "#EXTINF:-1 tvg-id=\"lrt.lt\",LRT HD".data := by
  refine ⟨?_, ?_, ?_⟩
  · intro epg cid name names hmem hname
    refine ⟨similarity_self name, ?_⟩
    have hpair : (cid, name) ∈ allPairs epg :=
      List.mem_flatMap.mpr ⟨(cid, names), hmem, List.mem_map.mpr ⟨name, hname, rfl⟩⟩
    have hle1 : (1 : ℚ) ≤ maxSimilarity name epg := by
      have h : similarity name name ≤ maxSimilarity name epg := by
        unfold maxSimilarity
        exact foldl_max_mem_le _ 0 _ (List.mem_map.mpr ⟨(cid, name), hpair, rfl⟩)
      rw [similarity_self name] at h
      exact h
    have hmax : ((allPairs epg).foldl (fbmStep name) (none, 0)).2 =
        maxSimilarity name epg := fbm_fold_snd_max name epg
    rcases fbm_fold_last_update name (allPairs epg) (none, 0) with
      hfix | ⟨pre, p, post, hsplit, hres, _, hpre, _⟩
    · exfalso
      have h0 : maxSimilarity name epg = 0 := by rw [← hmax, hfix]
      rw [h0] at hle1
      norm_num at hle1
    · refine ⟨pre, p, post, hsplit, ?_, ?_, ?_⟩
      · rw [find_best_match_eq]
        have hcond : MIN_SIMILARITY ≤
            ((allPairs epg).foldl (fbmStep name) (none, 0)).2 := by
          rw [hmax]
          have hm : MIN_SIMILARITY ≤ (1 : ℚ) := by norm_num [MIN_SIMILARITY]
          exact le_trans hm hle1
        rw [if_pos hcond, hres]
      · rw [← hmax, hres]
      · intro q hq
        have hlt := hpre q hq
        rw [← hmax, hres]
        exact hlt
  · have hp : parse_epg_channels epgC5w =
        [(['l', 'r', 't', '.', 'l', 't'], [['L', 'R', 'T', ' ', 'H', 'D']])] := by
      decide
    have hfb : find_best_match ['L', 'R', 'T', ' ', 'H', 'D']
        [(['l', 'r', 't', '.', 'l', 't'], [['L', 'R', 'T', ' ', 'H', 'D']])] =
        (some ['l', 'r', 't', '.', 'l', 't'], 1) :=
      fbm_single _ _ _ (similarity_self _)
    rw [hp]
    exact congrArg Prod.fst hfb
  · have hm3u : parse_m3u_channels m3uC5w =
        [(['L', 'R', 'T', ' ', 'H', 'D'], "http://lrt".data)] := by decide
    have hp : parse_epg_channels epgC5w =
        [(['l', 'r', 't', '.', 'l', 't'], [['L', 'R', 'T', ' ', 'H', 'D']])] := by
      decide
    rw [hm3u, hp, matchFold_single ['L', 'R', 'T', ' ', 'H', 'D']
      ("http://lrt".data) ['l', 'r', 't', '.', 'l', 't']
      ['L', 'R', 'T', ' ', 'H', 'D'] (similarity_self _) (by decide)]
    decide

/-- Witness for C5: the general part applied at the spec's scenario
discharges both membership hypotheses. -/
theorem C5_witness :
    similarity ("LRT HD".data) ("LRT HD".data) = 1 ∧
    ∃ pre p post,
      allPairs (parse_epg_channels epgC5w) = pre ++ p :: post ∧
      (find_best_match ("LRT HD".data) (parse_epg_channels epgC5w)).1 = some p.1 ∧
      similarity ("LRT HD".data) p.2 =
        maxSimilarity ("LRT HD".data) (parse_epg_channels epgC5w) ∧
      ∀ q ∈ pre, similarity ("LRT HD".data) q.2 <
        maxSimilarity ("LRT HD".data) (parse_epg_channels epgC5w) :=
  C5_exact_alias_amended.1 (parse_epg_channels epgC5w) ("lrt.lt".data)
    ("LRT HD".data) (["LRT HD".data]) (by decide) (by decide)

/-- C5 counterexample: the playlist name Xy appears verbatim as an alias of
channel b, yet the matcher selects channel a (whose alias xy merely ties at
score 1 after lowercasing and comes first in mapping order) — so the Name
Matcher does not select the channel owning the verbatim alias, under either
reading of "that channel". -/
theorem C5_counterexample :
    ("b".data, ["Xy".data]) ∈ parse_epg_channels epgC5 ∧
    "Xy".data ∈ ["Xy".data] ∧
    (find_best_match ("Xy".data) (parse_epg_channels epgC5)).1 = some ("a".data) ∧
    "Xy".data ∉ ["xy".data] := by
  have hp : parse_epg_channels epgC5 =
      [(['a'], [['x', 'y']]), (['b'], [['X', 'y']])] := by decide
  have hsim1 : similarity ['X', 'y'] ['x', 'y'] = 1 :=
    similarity_lower_eq ['X', 'y'] ['x', 'y'] (by decide)
  have hsim2 : similarity ['X', 'y'] ['X', 'y'] = 1 := similarity_self ['X', 'y']
  have hfb : find_best_match ['X', 'y'] [(['a'], [['x', 'y']]), (['b'], [['X', 'y']])] =
      (some ['a'], 1) := fbm_pair_first ['X', 'y'] ['a'] ['x', 'y'] ['b'] ['X', 'y'] hsim1 hsim2
  refine ⟨by decide, by decide, ?_, by decide⟩
  rw [hp]
  exact congrArg Prod.fst hfb

end AutoMatch

namespace AutoMatch

/-- Witness for C3: in a concrete full-pipeline run the emitted programme's
channel attribute is the id of an emitted channel. -/
theorem C3_witness :
    "a".data ∈ (emittedChannels epgC3
      (matchFold (parse_m3u_channels m3uC6) (parse_epg_channels epgC3)).2).map
        Prod.fst := by
  have hm3u : parse_m3u_channels m3uC6 = [(['X'], "http://u".data)] := by decide
  have hp : parse_epg_channels epgC3 = [(['a'], [['X']])] := by decide
  apply C3_no_orphan_programmes m3uC6 epgC3
    (" start=\"s\" channel=\"a\">p".data) ("a".data)
  · rw [hm3u, hp, matchFold_single ['X'] ("http://u".data) ['a'] ['X'] simXX
      (by decide)]
    decide
  · decide

/-- Witness for C10: both occurrences of the duplicated name X receive the
same metadata line. -/
theorem C10_witness :
    (build_new_m3u_lines
        (parse_m3u_channels ("#EXTM3U\n#EXTINF:-1,X\nhttp://1\n#EXTINF:-1,X\nhttp://2\n".data))
        (matchFold
          (parse_m3u_channels ("#EXTM3U\n#EXTINF:-1,X\nhttp://1\n#EXTINF:-1,X\nhttp://2\n".data))
          (parse_epg_channels epgC6)).1).getD (2 * 0 + 1) [] =
    (build_new_m3u_lines
        (parse_m3u_channels ("#EXTM3U\n#EXTINF:-1,X\nhttp://1\n#EXTINF:-1,X\nhttp://2\n".data))
        (matchFold
          (parse_m3u_channels ("#EXTM3U\n#EXTINF:-1,X\nhttp://1\n#EXTINF:-1,X\nhttp://2\n".data))
          (parse_epg_channels epgC6)).1).getD (2 * 1 + 1) [] :=
  C10_same_name_same_id
    ("#EXTM3U\n#EXTINF:-1,X\nhttp://1\n#EXTINF:-1,X\nhttp://2\n".data) epgC6
    0 1 (by decide) (by decide) (by decide)

end AutoMatch

namespace AutoMatch

/-- C6 (amended): the set of channel identifiers appearing in the projected
guide is a subset — not necessarily a strict one — of the channel
identifiers of the original guide document: every emitted channel block is
one of the original document's channel blocks. -/
theorem C6_projected_ids_subset (epg_xml : Str) (used_ids : List Str) (c : Str)
    (h : c ∈ (emittedChannels epg_xml used_ids).map Prod.fst) :
    c ∈ (channelBlocks epg_xml).map Prod.fst := by
  unfold emittedChannels at h
  rcases List.mem_map.mp h with ⟨q, hq, rfl⟩
  exact List.mem_map.mpr ⟨q, (List.mem_filter.mp hq).1, rfl⟩

/-- Witness for C6 at a concrete projection. -/
theorem C6_witness : "a".data ∈ (channelBlocks epgC6).map Prod.fst :=
  C6_projected_ids_subset epgC6 [['a']] ("a".data) (by decide)

/-- C6 counterexample: a full-pipeline run in which the playlist matches the
guide's only channel, so the projected guide's identifier set equals the
original's — the inclusion is not strict. -/
theorem C6_counterexample :
    (channelBlocks (build_filtered_epg epgC6
        (matchFold (parse_m3u_channels m3uC6) (parse_epg_channels epgC6)).2)).map
      Prod.fst = (channelBlocks epgC6).map Prod.fst ∧
    ¬ ∃ c : Str, c ∈ (channelBlocks epgC6).map Prod.fst ∧
        c ∉ (channelBlocks (build_filtered_epg epgC6
          (matchFold (parse_m3u_channels m3uC6) (parse_epg_channels epgC6)).2)).map
            Prod.fst := by
  have hm3u : parse_m3u_channels m3uC6 = [(['X'], "http://u".data)] := by decide
  have hp : parse_epg_channels epgC6 = [(['a'], [['X']])] := by decide
  have h1 : (channelBlocks (build_filtered_epg epgC6
      (matchFold (parse_m3u_channels m3uC6) (parse_epg_channels epgC6)).2)).map
        Prod.fst = (channelBlocks epgC6).map Prod.fst := by
    rw [hm3u, hp, matchFold_single ['X'] ("http://u".data) ['a'] ['X'] simXX
      (by decide)]
    decide
  refine ⟨h1, ?_⟩
  rintro ⟨c, hc, hnc⟩
  rw [h1] at hnc
  exact hnc hc

end AutoMatch

namespace AutoMatch

/-- The strict decoder agrees with the ignoring decoder wherever it
succeeds; at any given fuel it either fails or produces exactly the
ignoring decoder's output. -/
lemma decodeAux_agree :
    ∀ (fuel : Nat) (bs : List Nat),
      decodeUtf8StrictAux fuel bs = none ∨
        decodeUtf8StrictAux fuel bs = some (decodeUtf8IgnoreAux fuel bs) := by
  intro fuel bs
  induction fuel, bs using decodeUtf8IgnoreAux.induct
  case case1 x =>
    cases x with
    | nil => right; rfl
    | cons b rest => left; rfl
  case case2 t ht =>
    cases t with
    | zero => exact (ht rfl).elim
    | succ k => right; rfl
  all_goals try (rename_i ih; rcases ih with hrec | hrec)
  all_goals first
    | (left; simp [decodeUtf8StrictAux, decodeUtf8IgnoreAux, *]; done)
    | (right; simp [decodeUtf8StrictAux, decodeUtf8IgnoreAux, *]; done)

/-- C7 (amended): decoding the decompressed guide bytes never fails —
`errors="ignore"` makes the decoder total, agreeing with strict decoding on
well-formed input and dropping ill-formed byte sequences (rather than
replacing them with a substitution character, and rather than failing). -/
theorem C7_decode_lenient :
    (∀ (bs : List Nat) (cs : List Char),
        decodeUtf8Strict bs = some cs → decodeUtf8Ignore bs = cs) ∧
    decodeUtf8Ignore [0x41, 0xFF, 0x42] = "AB".data ∧
    decodeUtf8Strict [0x41, 0xFF, 0x42] = none := by
  refine ⟨?_, by decide, by decide⟩
  intro bs cs h
  rcases decodeAux_agree (bs.length + 1) bs with h2 | h2
  · rw [decodeUtf8Strict] at h
    rw [h] at h2
    exact Option.noConfusion h2
  · rw [decodeUtf8Strict] at h
    rw [h] at h2
    exact (Option.some_inj.mp h2).symm

/-- Witness for C7 at a well-formed input. -/
theorem C7_witness : decodeUtf8Ignore [0x41] = ['A'] :=
  C7_decode_lenient.1 [0x41] ['A'] (by decide)

/-- C7 counterexample: on input bytes containing the invalid byte 0xFF the
decoder does not fail and produces AB with no substitution character
(U+FFFD) anywhere in the output — the invalid byte is dropped, not
substituted, refuting the claimed replacement behavior. -/
theorem C7_counterexample :
    decodeUtf8Strict [0x41, 0xFF, 0x42] = none ∧
    decodeUtf8Ignore [0x41, 0xFF, 0x42] = "AB".data ∧
    (Char.ofNat 0xFFFD) ∉ decodeUtf8Ignore [0x41, 0xFF, 0x42] := by
  refine ⟨by decide, by decide, by decide⟩

end AutoMatch
